import Mathlib

/-
Verification of the snapshot-synchronization and delta-aggregation engine of
the SVC collectd plugin (src/collectd-plugin/svc_plugin.py, together with
src/collectd-plugin/base.py).

The Lean definitions below are shallow embeddings of the plugin code.  Each
definition carries a comment pointing to the lines of svc_plugin.py (or
base.py) that it embeds.  Numeric conventions:

* dump timestamps (epochs) and dump counters are natural numbers;
* raw performance counters are integers (they are parsed with int(...));
* values produced by Python true division are rationals;
* Python's int(x) truncation toward zero on an exact quotient of integers
  is Int.tdiv (the plugin divides accumulated deltas by the whole-second
  sampling interval before truncating).
-/

namespace SvcPlugin

/- ## Timestamp catalog and reconciler
   svc_plugin.py lines 211-271: the timestamps dictionary maps an epoch to a
   record holding a display string and a counter of dump files seen for that
   epoch; the reconciler scans epochs in descending order for the most
   recent complete one, queues missed intermediate epochs for catch-up, and
   expires catch-up entries that are no longer recoverable.

   A catalog is modelled as an association list of (epoch, counter) pairs
   (one pair per distinct epoch, as in the Python dict). -/

/-- Insert a pair into a list sorted by decreasing epoch. -/
def insertDesc (x : Nat × Nat) : List (Nat × Nat) → List (Nat × Nat)
  | [] => [x]
  | y :: ys => if y.1 ≤ x.1 then x :: y :: ys else y :: insertDesc x ys

/-- Sort a catalog by decreasing epoch
    (sorted(timestamps.keys(), reverse=True), line 238). -/
def sortDesc : List (Nat × Nat) → List (Nat × Nat)
  | [] => []
  | x :: xs => insertDesc x (sortDesc xs)

/-- Insert a pair into a list sorted by increasing epoch. -/
def insertAsc (x : Nat × Nat) : List (Nat × Nat) → List (Nat × Nat)
  | [] => [x]
  | y :: ys => if x.1 ≤ y.1 then x :: y :: ys else y :: insertAsc x ys

/-- Sort a catalog by increasing epoch
    (sorted(timestamps.keys()), line 261). -/
def sortAsc : List (Nat × Nat) → List (Nat × Nat)
  | [] => []
  | x :: xs => insertAsc x (sortAsc xs)

/-- The first complete epoch in the descending scan: the loop at lines
    238-239 skips records whose counter differs from dumpCount and acts on
    the first record with counter == dumpCount. -/
def findComplete (dumpCount : Nat) (recs : List (Nat × Nat)) : Option Nat :=
  ((sortDesc recs).find? (fun r => r.2 == dumpCount)).map Prod.fst

/-- The catch-up filling loop at lines 242-246:
    while self.time != epoch - self.interval:
        self.time = self.time + self.interval
        self.catchup[self.time] = ...
    It returns the list of epochs added to the catch-up dictionary and the
    final value of self.time.  The loop is executed with explicit fuel; the
    Python loop terminates exactly when the distance from the current time
    to the target is a multiple of the interval, and every claim below about
    this loop is stated under that alignment condition, with fuel large
    enough to cover it. -/
def fill : Nat → Nat → Nat → Nat → List Nat × Nat
  | 0, t, _, _ => ([], t)
  | fuel + 1, t, i, target =>
    if t = target then ([], t)
    else
      let r := fill fuel (t + i) i target
      ((t + i) :: r.1, r.2)

/-- The branch structure at lines 241-251, entered for the most recent
    complete epoch E.  Given the previous collection time t and the
    interval i it returns the new value of self.time (line 269 assigns
    currentTime back to self.time) together with the epochs queued for
    catch-up.  Line 237 initializes currentTime to self.time, so when the
    final guard at line 249 fails the previous time is kept. -/
def scanAdvance (t i E : Nat) : Nat × List Nat :=
  if t ≠ 0 ∧ t + i < E then
    let p := fill (E - t) t i (E - i)
    ((if E = p.2 + i ∨ p.2 = 0 then E else t), p.1)
  else if t ≠ 0 ∧ E < t + i then (t, [])
  else (E, [])

/-- The whole descending scan at lines 236-251: locate the most recent
    complete epoch and run the advance logic on it; when no complete epoch
    exists, self.time keeps its previous value and nothing is queued. -/
def svcScan (t i dumpCount : Nat) (recs : List (Nat × Nat)) : Nat × List Nat :=
  match findComplete dumpCount recs with
  | none => (t, [])
  | some E => scanAdvance t i E

/-- Dictionary lookup timestamps[e] (returning the counter). -/
def lookupEpoch (cat : List (Nat × Nat)) (e : Nat) : Option Nat :=
  (cat.find? (fun r => r.1 == e)).map Prod.snd

/-- The completeness test guarding the catch-up replay, line 255:
    (catchupEpoch in timestamps) and
    (timestamps[catchupEpoch]['counter'] == dumpCount). -/
def catchupProcessed (dumpCount : Nat) (cat : List (Nat × Nat)) (e : Nat) : Bool :=
  match lookupEpoch cat e with
  | some c => c == dumpCount
  | none => false

/-- The eviction counting loop at lines 260-267:
    tempCount = 0
    for epoch in sorted(timestamps.keys()):
        if int(epoch) >= int(catchupEpoch):
            tempCount = tempCount + 1
            if tempCount >= 15: del self.catchup[catchupEpoch]; break
    The function returns true when the entry is evicted. -/
def evictLoop (e : Nat) (tempCount : Nat) : List Nat → Bool
  | [] => false
  | k :: rest =>
    if e ≤ k then
      if 15 ≤ tempCount + 1 then true else evictLoop e (tempCount + 1) rest
    else evictLoop e tempCount rest

/-- The per-entry catch-up decision at lines 254-267: a complete entry is
    replayed (never evicted); an entry that is not complete is evicted
    exactly when the counting loop reaches 15. -/
def evictDecision (cat : List (Nat × Nat)) (e dumpCount : Nat) : Bool :=
  if catchupProcessed dumpCount cat e then false
  else evictLoop e 0 ((sortAsc cat).map Prod.fst)

/-- Number of cataloged epochs at or after e. -/
def countAtOrAfter (cat : List (Nat × Nat)) (e : Nat) : Nat :=
  (cat.map Prod.fst).countP (fun k => e ≤ k)

/-- Number of cataloged epochs strictly after e. -/
def countStrictlyAfter (cat : List (Nat × Nat)) (e : Nat) : Nat :=
  (cat.map Prod.fst).countP (fun k => e < k)

/- Auxiliary lemmas about the catalog functions. -/

theorem mem_insertDesc (x a : Nat × Nat) (l : List (Nat × Nat)) :
    a ∈ insertDesc x l ↔ a = x ∨ a ∈ l := by
  induction l with
  | nil => simp [insertDesc]
  | cons y ys ih =>
    simp only [insertDesc]
    split
    · simp
    · simp only [List.mem_cons, ih]
      tauto

theorem mem_sortDesc (a : Nat × Nat) (l : List (Nat × Nat)) :
    a ∈ sortDesc l ↔ a ∈ l := by
  induction l with
  | nil => simp [sortDesc]
  | cons y ys ih => simp [sortDesc, mem_insertDesc, ih]

theorem findComplete_mem (dumpCount : Nat) (recs : List (Nat × Nat)) (E : Nat)
    (h : findComplete dumpCount recs = some E) : (E, dumpCount) ∈ recs := by
  unfold findComplete at h
  cases hf : (sortDesc recs).find? (fun r => r.2 == dumpCount) with
  | none => rw [hf] at h; simp at h
  | some r =>
    rw [hf] at h
    simp only [Option.map_some'] at h
    have hmem := List.mem_of_find?_eq_some hf
    have hp := List.find?_some hf
    have h2 : r.2 = dumpCount := by simpa using hp
    rw [mem_sortDesc] at hmem
    have : (E, dumpCount) = r := by
      cases r with
      | mk r1 r2 =>
        simp only [Option.some.injEq] at h
        simp_all
    rw [this]
    exact hmem

theorem scanAdvance_fst (t i E : Nat) :
    (scanAdvance t i E).1 = t ∨ (scanAdvance t i E).1 = E := by
  unfold scanAdvance
  split
  · dsimp only
    split
    · right; rfl
    · left; rfl
  · split
    · left; rfl
    · right; rfl

theorem countP_insertAsc (p : Nat → Bool) (x : Nat × Nat) (l : List (Nat × Nat)) :
    ((insertAsc x l).map Prod.fst).countP p
      = ((x :: l).map Prod.fst).countP p := by
  induction l with
  | nil => simp [insertAsc]
  | cons y ys ih =>
    simp only [insertAsc]
    split
    · rfl
    · simp only [List.map_cons, List.countP_cons] at *
      omega

theorem countP_sortAsc (p : Nat → Bool) (l : List (Nat × Nat)) :
    ((sortAsc l).map Prod.fst).countP p = (l.map Prod.fst).countP p := by
  induction l with
  | nil => rfl
  | cons y ys ih =>
    simp only [sortAsc, countP_insertAsc, List.map_cons, List.countP_cons, ih]

theorem evictLoop_eq_countP (e : Nat) (keys : List Nat) :
    ∀ tc, tc < 15 →
      (evictLoop e tc keys = decide (15 ≤ tc + keys.countP (fun k => e ≤ k))) := by
  induction keys with
  | nil => intro tc htc; simp [evictLoop]; omega
  | cons k rest ih =>
    intro tc htc
    simp only [evictLoop, List.countP_cons]
    by_cases hk : e ≤ k
    · have hkd : (decide (e ≤ k)) = true := by simpa using hk
      rw [if_pos hk]
      by_cases h15 : 15 ≤ tc + 1
      · rw [if_pos h15]
        simp only [hkd, if_true]
        have : 15 ≤ tc + (rest.countP (fun k => e ≤ k) + 1) := by omega
        simp [this]
      · rw [if_neg h15]
        rw [ih (tc + 1) (by omega)]
        simp only [hkd, decide_eq_decide]
        simp only [if_true]
        omega
    · have hkd : (decide (e ≤ k)) = false := by simpa using hk
      rw [if_neg hk]
      rw [ih tc htc]
      simp only [hkd, decide_eq_decide]
      simp

theorem evictDecision_eq (cat : List (Nat × Nat)) (e dumpCount : Nat) :
    evictDecision cat e dumpCount
      = (!(catchupProcessed dumpCount cat e) && decide (15 ≤ countAtOrAfter cat e)) := by
  unfold evictDecision
  by_cases hc : catchupProcessed dumpCount cat e = true
  · simp [hc]
  · have hcf : catchupProcessed dumpCount cat e = false := by
      revert hc; cases catchupProcessed dumpCount cat e <;> simp
    rw [hcf]
    rw [if_neg (by simp)]
    rw [evictLoop_eq_countP e _ 0 (by omega)]
    rw [countP_sortAsc]
    simp [countAtOrAfter]

theorem fill_eq (i : Nat) (hi : 0 < i) :
    ∀ (m fuel t : Nat), m ≤ fuel →
      fill fuel t i (t + m * i)
        = ((List.range m).map (fun j => t + (j + 1) * i), t + m * i) := by
  intro m
  induction m with
  | zero => intro fuel t _; cases fuel <;> simp [fill]
  | succ n ih =>
    intro fuel t hm
    cases fuel with
    | zero => omega
    | succ f =>
      have hpos : 0 < (n + 1) * i := Nat.mul_pos (by omega) hi
      have hne : t ≠ t + (n + 1) * i := by omega
      have harr : t + (n + 1) * i = (t + i) + n * i := by
        rw [Nat.succ_mul]; omega
      simp only [fill]
      rw [if_neg hne, harr, ih f (t + i) (by omega)]
      have hfun : ((fun j => t + (j + 1) * i) ∘ Nat.succ)
          = (fun j => (t + i) + (j + 1) * i) := by
        funext j
        simp only [Function.comp_apply]
        rw [Nat.succ_mul]
        omega
      rw [List.range_succ_eq_map, List.map_cons, List.map_map, hfun]
      simp

/-- Claim C3: for every poll cycle and every observed epoch, an epoch whose
    observed dump count is strictly less than the expected dump count is
    never selected as the current collection epoch, neither by the normal
    descending scan (svc_plugin.py lines 236-251: the new value of
    self.time is either left unchanged or is an epoch whose counter equals
    dumpCount) nor by the catch-up replay path (lines 254-258: an epoch is
    replayed only when its cataloged counter equals dumpCount). -/
theorem C3_incomplete_never_selected (t i dumpCount e : Nat)
    (recs : List (Nat × Nat))
    (hp : catchupProcessed dumpCount recs e = true) :
    ((svcScan t i dumpCount recs).1 = t
      ∨ ∃ c, ((svcScan t i dumpCount recs).1, c) ∈ recs ∧ c = dumpCount)
    ∧ ∃ c, (e, c) ∈ recs ∧ c = dumpCount := by
  constructor
  · unfold svcScan
    cases hf : findComplete dumpCount recs with
    | none => left; rfl
    | some E =>
      rcases scanAdvance_fst t i E with h | h
      · left; exact h
      · right
        exact ⟨dumpCount, by rw [h]; exact findComplete_mem _ _ _ hf, rfl⟩
  · unfold catchupProcessed lookupEpoch at hp
    cases hf : recs.find? (fun r => r.1 == e) with
    | none => rw [hf] at hp; simp at hp
    | some r =>
      rw [hf] at hp
      simp only [Option.map_some'] at hp
      have hmem := List.mem_of_find?_eq_some hf
      have hkey := List.find?_some hf
      have h1 : r.1 = e := by simpa using hkey
      have h2 : r.2 = dumpCount := by simpa using hp
      refine ⟨dumpCount, ?_, rfl⟩
      have : r = (e, dumpCount) := by
        cases r
        simp_all
      rwa [this] at hmem

/-- Witness for C3 at a concrete catalog. -/
theorem C3_incomplete_never_selected_witness :
    (((svcScan 0 60 8 ([(100, 8)] : List (Nat × Nat))).1 = 0
        ∨ ∃ c, ((svcScan 0 60 8 ([(100, 8)] : List (Nat × Nat))).1, c)
            ∈ ([(100, 8)] : List (Nat × Nat)) ∧ c = 8)
      ∧ ∃ c, ((100 : Nat), c) ∈ ([(100, 8)] : List (Nat × Nat)) ∧ c = 8) :=
  C3_incomplete_never_selected 0 60 8 100 ([(100, 8)] : List (Nat × Nat))
    (by decide)

/-- Claim C4 (amended): a backlog epoch that is not complete at this poll is
    evicted, unprocessed, exactly when at least 15 cataloged epochs are at
    or after it (svc_plugin.py line 262 counts epochs with
    int(epoch) >= int(catchupEpoch), so when the epoch itself is still
    cataloged, 14 strictly-later epochs suffice); the bound is the literal
    constant 15 at line 264, not a configuration value. -/
theorem C4_eviction_condition (cat : List (Nat × Nat)) (e dumpCount : Nat) :
    evictDecision cat e dumpCount = true
      ↔ (catchupProcessed dumpCount cat e = false ∧ 15 ≤ countAtOrAfter cat e) := by
  rw [evictDecision_eq]
  cases h : catchupProcessed dumpCount cat e <;> simp [h]

/-- A catalog in which epoch 100 is still listed (incomplete, counter 1)
    and exactly 14 strictly-later epochs are available. -/
def cat14 : List (Nat × Nat) :=
  [(100, 1), (160, 1), (220, 1), (280, 1), (340, 1), (400, 1), (460, 1),
   (520, 1), (580, 1), (640, 1), (700, 1), (760, 1), (820, 1), (880, 1),
   (940, 1)]

/-- Counterexample to claim C4 as stated: with expected dump count 8, the
    backlog epoch 100 is evicted although only 14 strictly-later epochs
    are available in the catalog. -/
theorem C4_strictly_later_counterexample :
    evictDecision cat14 100 8 = true
      ∧ countStrictlyAfter cat14 100 = 14
      ∧ ¬ (15 ≤ countStrictlyAfter cat14 100) := by decide

/-- Claim C6: when the most recent complete epoch E exceeds the previous
    collection time t by more than one interval (and t is nonzero, i.e., a
    prior collection exists), the scan queues every missed intermediate
    epoch t+i, t+2i, ..., E-i for catch-up and advances the collection time
    to E in the same poll (svc_plugin.py lines 236-251).  E is written as
    t + (m+1)*i because the while loop at lines 242-246 terminates exactly
    when the gap is a whole number of intervals. -/
theorem C6_missed_epochs_backlogged (t i dumpCount m : Nat)
    (recs : List (Nat × Nat))
    (ht : t ≠ 0) (hi : 0 < i) (hm : 0 < m)
    (hE : findComplete dumpCount recs = some (t + (m + 1) * i)) :
    svcScan t i dumpCount recs
        = (t + (m + 1) * i, (List.range m).map (fun j => t + (j + 1) * i))
      ∧ ∀ a ∈ (svcScan t i dumpCount recs).2, t < a ∧ a < t + (m + 1) * i := by
  have hmul : (m + 1) * i = m * i + i := Nat.succ_mul m i
  have hmi : i ≤ m * i := by
    have := Nat.mul_le_mul_right i (show 1 ≤ m by omega)
    simpa using this
  have hmain : svcScan t i dumpCount recs
      = (t + (m + 1) * i, (List.range m).map (fun j => t + (j + 1) * i)) := by
    unfold svcScan
    rw [hE]
    dsimp only
    unfold scanAdvance
    rw [if_pos ⟨ht, by omega⟩]
    have hsub1 : t + (m + 1) * i - t = (m + 1) * i := by omega
    have hsub2 : t + (m + 1) * i - i = t + m * i := by omega
    rw [hsub1, hsub2]
    have hfuel : m ≤ (m + 1) * i := by
      have h1 : m ≤ m * i := Nat.le_mul_of_pos_right m hi
      omega
    rw [fill_eq i hi m ((m + 1) * i) t hfuel]
    have hcond : t + (m + 1) * i = (t + m * i) + i ∨ t + m * i = 0 := by
      left; omega
    dsimp only
    rw [if_pos hcond]
  refine ⟨hmain, ?_⟩
  rw [hmain]
  intro a ha
  simp only [List.mem_map, List.mem_range] at ha
  obtain ⟨j, hj, rfl⟩ := ha
  have h1 : 0 < (j + 1) * i := Nat.mul_pos (by omega) hi
  have h2 : (j + 1) * i < (m + 1) * i :=
    Nat.mul_lt_mul_of_lt_of_le (by omega) (le_refl i) hi
  omega

/-- Witness for C6: previous time 100, interval 60, most recent complete
    epoch 280; epochs 160 and 220 are queued and the time advances to 280. -/
theorem C6_missed_epochs_backlogged_witness :
    svcScan 100 60 8 ([(280, 8)] : List (Nat × Nat)) = (280, [160, 220])
      ∧ ∀ a ∈ (svcScan 100 60 8 ([(280, 8)] : List (Nat × Nat))).2,
          100 < a ∧ a < 280 :=
  C6_missed_epochs_backlogged 100 60 8 2 ([(280, 8)] : List (Nat × Nat))
    (by decide) (by decide) (by decide) (by decide)

/- ## Delta calculator and aggregation
   svc_plugin.py lines 753-1003: per-leaf counter differences new - old are
   accumulated with += into node/port/group/vdisk metric slots, converted
   to rates by int(total / self.interval), latencies are quotients of
   accumulated numerator and denominator sums guarded against a zero
   denominator, and a final sweep replaces every negative metric value
   with 0 (lines 996-1003). -/

/-- Accumulated sum of raw per-leaf differences new - old for one summed
    metric, as produced by the += loops (e.g. lines 800-810): a leaf is a
    pair (old value, new value) and contributes new - old, possibly
    negative. -/
def sumDeltas (ls : List (Int × Int)) : Int :=
  ls.foldl (fun acc p => acc + (p.2 - p.1)) 0

/-- Reported value of a summed metric: rate conversion
    int(total / self.interval) (lines 900-958; truncation toward zero of
    the true quotient, for a whole-second interval) followed by the final
    negative sweep (lines 996-1003). -/
def reportedSummedMetric (interval : Int) (ls : List (Int × Int)) : Int :=
  let r := (sumDeltas ls).tdiv interval
  if r < 0 then 0 else r

/-- Modelled from the spec's words for claim C1: every per-field delta
    clamped to max(0, new - old) before being summed into the metric. -/
def specPerFieldClampedMetric (interval : Int) (ls : List (Int × Int)) : Int :=
  ((ls.map (fun p : Int × Int => max 0 (p.2 - p.1))).sum).tdiv interval

theorem sumDeltas_foldl (ls : List (Int × Int)) :
    ∀ a, ls.foldl (fun acc p => acc + (p.2 - p.1)) a
      = a + (ls.map (fun p : Int × Int => p.2 - p.1)).sum := by
  induction ls with
  | nil => intro a; simp
  | cons x xs ih =>
    intro a
    simp only [List.foldl_cons, List.map_cons, List.sum_cons, ih]
    ring

theorem sumDeltas_eq_sum (ls : List (Int × Int)) :
    sumDeltas ls = (ls.map (fun p : Int × Int => p.2 - p.1)).sum := by
  unfold sumDeltas
  rw [sumDeltas_foldl]
  ring

/-- Claim C1 (amended): the per-field delta fed into a summed metric is the
    raw difference new - old, possibly negative; the clamp to 0 is applied
    once, to the final aggregated metric value, after summation and rate
    conversion (lines 996-1003), so a negative difference offsets the
    positive deltas of other leaves inside the same sum. -/
theorem C1_clamp_after_aggregation (interval : Int) (ls : List (Int × Int)) :
    reportedSummedMetric interval ls
        = max 0 (((ls.map (fun p : Int × Int => p.2 - p.1)).sum).tdiv interval)
      ∧ ∀ (l₁ l₂ : List (Int × Int)) (p : Int × Int),
          sumDeltas (l₁ ++ p :: l₂) = sumDeltas (l₁ ++ l₂) + (p.2 - p.1) := by
  constructor
  · unfold reportedSummedMetric
    rw [sumDeltas_eq_sum]
    rcases le_or_lt 0 (((ls.map (fun p : Int × Int => p.2 - p.1)).sum).tdiv interval) with h | h
    · simp only [if_neg (not_lt.mpr h)]
      exact (max_eq_right h).symm
    · simp only [if_pos h]
      exact (max_eq_left h.le).symm
  · intro l₁ l₂ p
    rw [sumDeltas_eq_sum, sumDeltas_eq_sum]
    simp only [List.map_append, List.map_cons, List.sum_append, List.sum_cons]
    ring

/-- Counterexample to claim C1 as stated: with interval 1 and two leaves
    whose differences are -6 (a counter reset) and +10, the reported
    metric is 4, while per-field clamped deltas max(0, new - old) would
    sum to 10; the reset contributes -6, not 0, to the sum. -/
theorem C1_per_field_clamp_counterexample :
    reportedSummedMetric 1 [((10 : Int), (4 : Int)), (0, 10)] = 4
      ∧ specPerFieldClampedMetric 1 [((10 : Int), (4 : Int)), (0, 10)] = 10
      ∧ (4 : Int) ≠ 10 := by
  refine ⟨by decide, ?_, by decide⟩
  have hsum : (([((10 : Int), (4 : Int)), (0, 10)]).map
      (fun p : Int × Int => max 0 (p.2 - p.1))).sum = 10 := by norm_num
  unfold specPerFieldClampedMetric
  rw [hsum]
  decide

/-- The backend aggregation loop over mdisks, lines 859-892: each leaf is
    (mdisk id, its mdisk group, its counter delta for one summed backend
    field).  In the source, mdisk_data is bound to
    data[clustermdskgrp][mdiskGrp] at line 863 BEFORE mdiskGrp is
    reassigned to the current mdisk's group at line 864, so each mdisk's
    deltas are added to the group variable left over from the previous
    iteration (initially whatever the preceding vdisk loop left in
    mdiskGrp, line 795). -/
def mdiskLoop :
    List (String × String × Int) → String → (String → Int) → (String → Int)
  | [], _, totals => totals
  | l :: rest, grpVar, totals =>
    mdiskLoop rest l.2.1 (fun g => if g = grpVar then totals g + l.2.2 else totals g)

/-- The aggregate the spec describes for claim C2: the sum of the deltas of
    exactly the leaves assigned to a given group. -/
def specGroupSum (leaves : List (String × String × Int)) (g : String) : Int :=
  ((leaves.filter (fun l => l.2.1 == g)).map (fun l => l.2.2)).sum

/-- Claim C2 (code bug, svc_plugin.py lines 862-864): with the stale group
    variable initially holding the group of mdisk m1 and two mdisks m1 in
    group g1 (delta 100) and m2 in group g2 (delta 50) processed in that
    order, the code adds m2's delta to g1 and leaves g2's backend total at
    0, while the sum of the deltas of the leaves assigned to g2 is 50. -/
theorem C2_backend_group_misaggregation :
    mdiskLoop
        [(("m1" : String), ("g1" : String), (100 : Int)),
         (("m2" : String), ("g2" : String), (50 : Int))]
        ("g1") (fun _ => 0) ("g2") = 0
      ∧ specGroupSum
          [(("m1" : String), ("g1" : String), (100 : Int)),
           (("m2" : String), ("g2" : String), (50 : Int))] ("g2") = 50
      ∧ mdiskLoop
          [(("m1" : String), ("g1" : String), (100 : Int)),
           (("m2" : String), ("g2" : String), (50 : Int))]
          ("g1") (fun _ => 0) ("g1") = 150
      ∧ (0 : Int) ≠ 50 := by decide

/-- The final negative sweep (lines 996-1003) applied to one metric
    value. -/
def sweepClamp (q : ℚ) : ℚ := if q < 0 then 0 else q

/-- Node front-end latency before the sweep, lines 848-855: explicit
    if/else on the accumulated operation count. -/
def nodeFrontLatency (num den : Int) : ℚ :=
  if den = 0 then 0 else (num : ℚ) / (den : ℚ)

/-- Node back-end latency before the sweep: initialized to 0 (lines
    666-667) and assigned only under a nonzero guard (lines 894-897). -/
def nodeBackLatency (num den : Int) : ℚ :=
  if den ≠ 0 then (num : ℚ) / (den : ℚ) else 0

/-- Per-vdisk latency before the sweep: initialized to 0 (lines 740-741)
    and incremented once under a nonzero guard (lines 969-972). -/
def vdiskLatency (num den : Int) : ℚ :=
  if den ≠ 0 then 0 + (num : ℚ) / (den : ℚ) else 0

/-- Group latency before the sweep: initialized to 0 (lines 718-721) and
    incremented once under a nonzero guard (lines 984-994), for both the
    backend and frontend numerator/denominator pairs. -/
def groupLatency (num den : Int) : ℚ :=
  if den ≠ 0 then 0 + (num : ℚ) / (den : ℚ) else 0

/-- Common normal form of every reported latency value. -/
def guardedClampedDiv (num den : Int) : ℚ :=
  if den = 0 then 0 else max 0 ((num : ℚ) / (den : ℚ))

theorem sweepClamp_eq_max (q : ℚ) : sweepClamp q = max 0 q := by
  unfold sweepClamp
  rcases le_or_lt 0 q with h | h
  · rw [if_neg (not_lt.mpr h), max_eq_right h]
  · rw [if_pos h, max_eq_left h.le]

/-- Claim C7 (amended): at every aggregation level the reported latency is
    the guarded quotient with the final sweep applied: num/den when the
    accumulated denominator is nonzero and the quotient is nonnegative,
    0 when the denominator is 0, and 0 when the quotient is negative (the
    sweep at lines 996-1003 clamps it); the division is always guarded by
    a nonzero test, so no division by zero is performed. -/
theorem C7_latency_guarded_division (num den : Int) :
    sweepClamp (nodeFrontLatency num den) = guardedClampedDiv num den
      ∧ sweepClamp (nodeBackLatency num den) = guardedClampedDiv num den
      ∧ sweepClamp (vdiskLatency num den) = guardedClampedDiv num den
      ∧ sweepClamp (groupLatency num den) = guardedClampedDiv num den
      ∧ guardedClampedDiv num 0 = 0 := by
  have hmain : ∀ q : ℚ, (q = if den = 0 then 0 else (num : ℚ) / (den : ℚ)) →
      sweepClamp q = guardedClampedDiv num den := by
    intro q hq
    subst hq
    unfold guardedClampedDiv
    by_cases h : den = 0
    · simp [h, sweepClamp]
    · rw [if_neg h, if_neg h, sweepClamp_eq_max]
  refine ⟨hmain _ ?_, hmain _ ?_, hmain _ ?_, hmain _ ?_,
    by simp [guardedClampedDiv]⟩
  · rfl
  · unfold nodeBackLatency
    by_cases h : den = 0 <;> simp [h]
  · unfold vdiskLatency
    by_cases h : den = 0 <;> simp [h]
  · unfold groupLatency
    by_cases h : den = 0 <;> simp [h]

/-- Counterexample to claim C7 as stated: with accumulated numerator -5
    (a counter reset) and denominator 1, the reported node front-end
    latency is 0, not the quotient -5. -/
theorem C7_negative_quotient_counterexample :
    sweepClamp (nodeFrontLatency (-5) 1) = 0
      ∧ nodeFrontLatency (-5) 1 = -5
      ∧ ((0 : ℚ) ≠ -5) := by
  refine ⟨?_, ?_, by norm_num⟩ <;> norm_num [sweepClamp, nodeFrontLatency]

/-- Accumulation of per-vdisk latency numerators and denominators into
    mdiskGrpList (svc_plugin.py lines 964-968): a leaf is
    (group name, response-time delta rrp, operation-count delta ro) and
    adds its pair to its own group's totals.  The += accumulation is
    commutative, so it is modelled by structural recursion over the leaf
    list. -/
def accumGroups : List (String × Int × Int) → String → Int × Int
  | [], _ => (0, 0)
  | l :: rest, g =>
    let a := accumGroups rest g
    if g = l.1 then (a.1 + l.2.1, a.2 + l.2.2) else a

/-- The group read latency as reported: guarded increment on the
    accumulated pair (lines 991-992) followed by the final sweep
    (lines 996-1003). -/
def groupReadLatencyReported (leaves : List (String × Int × Int))
    (g : String) : ℚ :=
  sweepClamp
    (if (accumGroups leaves g).2 ≠ 0
     then 0 + ((accumGroups leaves g).1 : ℚ) / ((accumGroups leaves g).2 : ℚ)
     else 0)

/-- Sum of the response-time deltas of the leaves assigned to group g. -/
def groupNumSum (leaves : List (String × Int × Int)) (g : String) : Int :=
  ((leaves.filter (fun l => l.1 == g)).map (fun l => l.2.1)).sum

/-- Sum of the operation-count deltas of the leaves assigned to group g. -/
def groupDenSum (leaves : List (String × Int × Int)) (g : String) : Int :=
  ((leaves.filter (fun l => l.1 == g)).map (fun l => l.2.2)).sum

/-- Example group name used in the volume-weighting example of claim C8. -/
def gEx : String := "g"

theorem accumGroups_eq_sums (g : String) (leaves : List (String × Int × Int)) :
    accumGroups leaves g = (groupNumSum leaves g, groupDenSum leaves g) := by
  induction leaves with
  | nil => simp [accumGroups, groupNumSum, groupDenSum]
  | cons l rest ih =>
    unfold accumGroups groupNumSum groupDenSum
    rw [ih]
    by_cases h : g = l.1
    · have hb : (l.1 == g) = true := by simp [h]
      rw [if_pos h]
      simp only [List.filter_cons, hb, if_true, List.map_cons, List.sum_cons]
      exact Prod.ext (by unfold groupNumSum; ring) (by unfold groupDenSum; ring)
    · have hb : (l.1 == g) = false := by
        simp only [beq_eq_false_iff_ne, ne_eq]
        exact fun hh => h hh.symm
      simp [List.filter_cons, hb, groupNumSum, groupDenSum, h]

/-- Claim C8 (amended): the group latency is volume-weighted: the
    accumulated pair is exactly (sum of the leaves' response-time deltas,
    sum of their operation-count deltas) over the leaves assigned to that
    group, and the reported value is their quotient when the denominator
    is nonzero and the quotient nonnegative (0 when the denominator is
    zero; the final sweep clamps a negative quotient to 0); on the spec's
    example (100 ops at 1ms and 1 op at 100ms) it is 200/101, which is not
    the arithmetic mean (1+100)/2 of the per-leaf latencies. -/
theorem C8_volume_weighted_latency (leaves : List (String × Int × Int))
    (g : String) :
    accumGroups leaves g = (groupNumSum leaves g, groupDenSum leaves g)
      ∧ groupReadLatencyReported leaves g
          = (if groupDenSum leaves g = 0 then 0
             else max 0 ((groupNumSum leaves g : ℚ) / (groupDenSum leaves g : ℚ)))
      ∧ groupReadLatencyReported [(gEx, 100, 100), (gEx, 100, 1)] gEx = 200 / 101
      ∧ (200 : ℚ) / 101 ≠ (1 + 100) / 2 := by
  refine ⟨accumGroups_eq_sums g leaves, ?_, ?_, by norm_num⟩
  · unfold groupReadLatencyReported
    rw [accumGroups_eq_sums]
    by_cases h : groupDenSum leaves g = 0
    · simp [h, sweepClamp]
    · rw [if_pos (by simpa using h), if_neg h, sweepClamp_eq_max, zero_add]
  · have hacc : accumGroups [(gEx, 100, 100), (gEx, 100, 1)] gEx = (200, 101) := by
      decide
    unfold groupReadLatencyReported
    rw [hacc]
    norm_num [sweepClamp]

/-- Counterexample to claim C8 as stated: a single leaf with a negative
    response-time delta (counter reset) gives a reported group latency of
    0, not the quotient -3/1 = -3 of the summed deltas. -/
theorem C8_group_latency_clamp_counterexample :
    groupReadLatencyReported [(gEx, -3, 1)] gEx = 0
      ∧ (groupNumSum [(gEx, -3, 1)] gEx : ℚ)
          / (groupDenSum [(gEx, -3, 1)] gEx : ℚ) = -3
      ∧ ((0 : ℚ) ≠ -3) := by
  have hacc : accumGroups [(gEx, -3, 1)] gEx = (-3, 1) := by decide
  have hnum : groupNumSum [(gEx, -3, 1)] gEx = -3 := by decide
  have hden : groupDenSum [(gEx, -3, 1)] gEx = 1 := by decide
  refine ⟨?_, ?_, by norm_num⟩
  · unfold groupReadLatencyReported
    rw [hacc]
    norm_num [sweepClamp]
  · rw [hnum, hden]
    norm_num

/- ## Snapshot parsing and the two-generation cache
   svc_plugin.py lines 362-452 parse the dump files of the previous epoch
   into the 'old' slot of self.dumps (or, when the previous epoch was just
   consumed, rotate the cached 'new' data into 'old' without re-parsing),
   lines 454-545 parse the current epoch into 'new', and lines 1034-1041
   delete every 'old' entry after the metrics have been gathered. -/

/-- Raw integer attribute values of one vdsk element of an Nv dump file,
    as read by int(vdisk.get(...)) before any scaling. -/
structure VdiskRaw where
  ctw : Int
  ctwwt : Int
  ctwft : Int
  rl : Int
  wl : Int
  rlw : Int
  wlw : Int
  rb : Int
  wb : Int
  ro : Int
  wo : Int

/-- The vdisk CounterSet stored in the 'old' slot by the old-file parser
    (lines 433-443); it has no rlw/wlw keys. -/
structure VdiskOld where
  ctw : Int
  ctwwt : Int
  ctwft : Int
  rl : Int
  wl : Int
  rb : Int
  wb : Int
  ro : Int
  wo : Int

/-- The vdisk CounterSet stored in the 'new' slot by the new-file parser
    (lines 530-541); rlw and wlw are divided by 1000. -/
structure VdiskNew where
  ctw : Int
  ctwwt : Int
  ctwft : Int
  rl : Int
  wl : Int
  rlw : ℚ
  wlw : ℚ
  rb : Int
  wb : Int
  ro : Int
  wo : Int

/-- Old-file vdisk parsing, lines 433-443 (rb and wb scaled by 512). -/
def parseVdiskOld (r : VdiskRaw) : VdiskOld :=
  { ctw := r.ctw, ctwwt := r.ctwwt, ctwft := r.ctwft, rl := r.rl, wl := r.wl,
    rb := r.rb * 512, wb := r.wb * 512, ro := r.ro, wo := r.wo }

/-- New-file vdisk parsing, lines 530-541. -/
def parseVdiskNew (r : VdiskRaw) : VdiskNew :=
  { ctw := r.ctw, ctwwt := r.ctwwt, ctwft := r.ctwft, rl := r.rl, wl := r.wl,
    rlw := (r.rlw : ℚ) / 1000, wlw := (r.wlw : ℚ) / 1000,
    rb := r.rb * 512, wb := r.wb * 512, ro := r.ro, wo := r.wo }

/-- Restriction of a rotated 'new' vdisk CounterSet to the keys the old
    parser stores; these are exactly the keys the delta code reads from
    vdisk_old (lines 800-842). -/
def vdiskOldOfNew (n : VdiskNew) : VdiskOld :=
  { ctw := n.ctw, ctwwt := n.ctwwt, ctwft := n.ctwft, rl := n.rl, wl := n.wl,
    rb := n.rb, wb := n.wb, ro := n.ro, wo := n.wo }

/-- The per-field differences vdisk_new[f] - vdisk_old[f] read by the
    front-end metric loop, lines 800-842. -/
structure VdiskDeltas where
  rb : Int
  ro : Int
  wb : Int
  wo : Int
  rl : Int
  wl : Int
  ctw : Int
  ctwft : Int
  ctwwt : Int

def vdiskDeltas (o : VdiskOld) (n : VdiskNew) : VdiskDeltas :=
  { rb := n.rb - o.rb, ro := n.ro - o.ro, wb := n.wb - o.wb,
    wo := n.wo - o.wo, rl := n.rl - o.rl, wl := n.wl - o.wl,
    ctw := n.ctw - o.ctw, ctwft := n.ctwft - o.ctwft,
    ctwwt := n.ctwwt - o.ctwwt }

/-- Raw integer attribute values of one mdsk element of an Nm dump file. -/
structure MdiskRaw where
  rb : Int
  ro : Int
  wb : Int
  wo : Int
  re : Int
  we : Int
  pre : Int
  pwe : Int

/-- The mdisk CounterSet stored in 'old' (lines 419-426); no pre/pwe. -/
structure MdiskOld where
  rb : Int
  ro : Int
  wb : Int
  wo : Int
  re : Int
  we : Int

/-- The mdisk CounterSet stored in 'new' (lines 513-522); pre and pwe are
    divided by 1000. -/
structure MdiskNew where
  rb : Int
  wb : Int
  ro : Int
  wo : Int
  re : Int
  we : Int
  pre : ℚ
  pwe : ℚ

/-- Old-file mdisk parsing, lines 419-426. -/
def parseMdiskOld (r : MdiskRaw) : MdiskOld :=
  { rb := r.rb * 512, ro := r.ro, wb := r.wb * 512, wo := r.wo,
    re := r.re, we := r.we }

/-- New-file mdisk parsing, lines 513-522. -/
def parseMdiskNew (r : MdiskRaw) : MdiskNew :=
  { rb := r.rb * 512, wb := r.wb * 512, ro := r.ro, wo := r.wo,
    re := r.re, we := r.we,
    pre := (r.pre : ℚ) / 1000, pwe := (r.pwe : ℚ) / 1000 }

/-- Restriction of a rotated 'new' mdisk CounterSet to the keys the old
    parser stores; exactly the keys read from mdisk_old (lines 866-892). -/
def mdiskOldOfNew (n : MdiskNew) : MdiskOld :=
  { rb := n.rb, ro := n.ro, wb := n.wb, wo := n.wo, re := n.re, we := n.we }

/-- The per-field differences mdisk_new[f] - mdisk_old[f] read by the
    back-end metric loop, lines 866-892. -/
structure MdiskDeltas where
  rb : Int
  ro : Int
  wb : Int
  wo : Int
  re : Int
  we : Int

def mdiskDeltas (o : MdiskOld) (n : MdiskNew) : MdiskDeltas :=
  { rb := n.rb - o.rb, ro := n.ro - o.ro, wb := n.wb - o.wb,
    wo := n.wo - o.wo, re := n.re - o.re, we := n.we - o.we }

/-- The node CounterSet: both the old parser (lines 379-381) and the new
    parser (lines 471-473) store only the cpu busy counter. -/
structure NodeCounters where
  cpu : Int

def parseNodeOld (cpuBusy : Int) : NodeCounters := { cpu := cpuBusy }

def parseNodeNew (cpuBusy : Int) : NodeCounters := { cpu := cpuBusy }

/-- The port CounterSet: the old parser (lines 388-412) and the new parser
    (lines 481-505) store the same 23 integer fields with no scaling, so
    both are the identity on the raw integer attributes. -/
structure PortCounters where
  bbcz : Int
  cbr : Int
  cbt : Int
  cer : Int
  cet : Int
  hbr : Int
  hbt : Int
  her : Int
  het : Int
  icrc : Int
  itw : Int
  lf : Int
  lnbr : Int
  lnbt : Int
  lner : Int
  lnet : Int
  lsi : Int
  lsy : Int
  pspe : Int
  rmbr : Int
  rmbt : Int
  rmer : Int
  rmet : Int

def parsePortOld (r : PortCounters) : PortCounters := r

def parsePortNew (r : PortCounters) : PortCounters := r

/-- One component's cache cell inside self.dumps: the optional 'old' and
    'new' CounterSets for that component. -/
structure CacheCell (α : Type) where
  old : Option α
  new : Option α

/-- The new-to-old transfer for one cell (lines 446-452): when a 'new'
    entry exists it becomes 'old' and the 'new' key is deleted; a cell
    without 'new' is left unchanged. -/
def rotateCell {α : Type} (c : CacheCell α) : CacheCell α :=
  match c.new with
  | some n => { old := some n, new := none }
  | none => c

/-- The rotate-or-reparse branch condition at line 365: the old files are
    NOT re-parsed (the cache rotates instead) iff self.stats_history
    equals self.time - self.interval.  stats_history is None until a
    first collection succeeds (line 56) and afterwards holds the epoch of
    the last parsed collection (line 546), so the branch rotates exactly
    when the epoch being collected is the previously collected epoch plus
    one interval. -/
def rotateBranch (statsHistory : Option Int) (time interval : Int) : Bool :=
  statsHistory == some (time - interval)

/-- One node's entry in self.dumps: the sysid string plus the sections
    (nodes/ports/mdisks/vdisks), each mapping a component id to its cell.
    The 'sysid' key of the Python dict is kept apart because both the
    rotation loop (line 448) and the old-clearing loop (line 1038) skip
    it. -/
structure NodeDumps (α : Type) where
  sysid : String
  sections : List (String × List (String × CacheCell α))

/-- Deleting the 'old' entry of one cell (lines 1040-1041). -/
def clearOldCell {α : Type} (c : CacheCell α) : CacheCell α :=
  { c with old := none }

/-- The old-clearing loop over one node's sections (lines 1036-1041). -/
def clearOldDumps {α : Type} (d : NodeDumps α) : NodeDumps α :=
  { d with
    sections := d.sections.map
      (fun s => (s.1, s.2.map (fun c => (c.1, clearOldCell c.2)))) }

/-- The old-clearing loop over the whole cache (lines 1034-1041). -/
def clearOldAll {α : Type} (dumps : List (String × NodeDumps α)) :
    List (String × NodeDumps α) :=
  dumps.map (fun n => (n.1, clearOldDumps n.2))

/-- Checks that no component cell of any node still carries an 'old'
    CounterSet. -/
def allOldEmpty {α : Type} (dumps : List (String × NodeDumps α)) : Bool :=
  dumps.all (fun n =>
    n.2.sections.all (fun s => s.2.all (fun c => (c.2).old.isNone)))

/-- Claim C5: the snapshot cache rotates exactly when the epoch being
    collected equals the previously collected epoch plus one sampling
    interval (line 365); rotation moves the previously-'new' CounterSet
    into 'old' without re-parsing (lines 446-452), and for every entity
    kind the rotated 'old' data agrees, on every key the old parser would
    store and the delta code reads, with a fresh parse of the same raw
    dump data - so the cycle's deltas are the same as if the old epoch's
    files had been freshly parsed; when the gap is not one interval the
    branch re-parses instead. -/
theorem C5_cache_rotation_refinement (statsHistory : Option Int)
    (time interval : Int) :
    (rotateBranch statsHistory time interval = true
        ↔ statsHistory = some (time - interval))
      ∧ (∀ r : VdiskRaw, vdiskOldOfNew (parseVdiskNew r) = parseVdiskOld r)
      ∧ (∀ (r : VdiskRaw) (n : VdiskNew),
          vdiskDeltas (vdiskOldOfNew (parseVdiskNew r)) n
            = vdiskDeltas (parseVdiskOld r) n)
      ∧ (∀ r : MdiskRaw, mdiskOldOfNew (parseMdiskNew r) = parseMdiskOld r)
      ∧ (∀ (r : MdiskRaw) (n : MdiskNew),
          mdiskDeltas (mdiskOldOfNew (parseMdiskNew r)) n
            = mdiskDeltas (parseMdiskOld r) n)
      ∧ (∀ r : PortCounters, parsePortOld r = parsePortNew r)
      ∧ (∀ c : Int, parseNodeOld c = parseNodeNew c)
      ∧ (∀ (o : Option VdiskNew) (n : VdiskNew),
          rotateCell { old := o, new := some n } = { old := some n, new := none }) := by
  refine ⟨?_, fun r => rfl, fun r n => rfl, fun r => rfl, fun r n => rfl,
    fun r => rfl, fun c => rfl, fun o n => rfl⟩
  simp [rotateBranch]

/-- Claim C10: after the old-clearing loop that ends every get_stats cycle
    reaching metric emission (lines 1034-1041), no component cell of the
    per-node snapshot cache carries an 'old' CounterSet any more - the
    cache holds at most the single 'new' generation per component - and
    the clearing touches nothing else: sysid and every 'new' entry are
    preserved. -/
theorem C10_old_generation_cleared {α : Type}
    (dumps : List (String × NodeDumps α)) :
    allOldEmpty (clearOldAll dumps) = true
      ∧ (∀ c : CacheCell α, (clearOldCell c).new = c.new)
      ∧ (∀ d : NodeDumps α, (clearOldDumps d).sysid = d.sysid) := by
  refine ⟨?_, fun c => rfl, fun d => rfl⟩
  unfold allOldEmpty clearOldAll clearOldDumps clearOldCell
  simp [List.all_eq_true]

/- ## The scp sanitizer allowWildcards
   svc_plugin.py lines 61-69: the string is passed through unchanged when
   re.search finds a substring matching the byte pattern
   /dumps/iostats/\*[0-9]{6}_[0-9]{6}, and an empty byte string is
   returned otherwise (including for the empty input).  Byte strings are
   modelled as lists of characters. -/

/-- The literal part of the pattern, /dumps/iostats/ followed by the
    escaped star. -/
def litChars : List Char :=
  ['/', 'd', 'u', 'm', 'p', 's', '/', 'i', 'o', 's', 't', 'a', 't', 's',
   '/', '*']

/-- The character class [0-9]. -/
def isDigitCh (c : Char) : Bool := ('0' ≤ c && c ≤ '9')

/-- Match a literal character sequence at the head of the input, returning
    the remainder on success. -/
def checkLit : List Char → List Char → Option (List Char)
  | [], t => some t
  | _ :: _, [] => none
  | c :: cs, x :: xs => if x = c then checkLit cs xs else none

/-- Match exactly n characters of the class [0-9] at the head of the
    input, returning the remainder on success. -/
def checkDigits : Nat → List Char → Option (List Char)
  | 0, t => some t
  | _ + 1, [] => none
  | n + 1, x :: xs => if isDigitCh x then checkDigits n xs else none

/-- Match the whole pattern at the head of the input:
    the literal, six digits, an underscore, six digits. -/
def matchAt (t : List Char) : Bool :=
  match checkLit litChars t with
  | none => false
  | some t1 =>
    match checkDigits 6 t1 with
    | none => false
    | some t2 =>
      match t2 with
      | [] => false
      | x :: t3 => if x = '_' then (checkDigits 6 t3).isSome else false

/-- re.search: try the pattern at every starting position. -/
def searchPat : List Char → Bool
  | [] => matchAt []
  | c :: cs => matchAt (c :: cs) || searchPat cs

/-- Shallow embedding of SVCPlugin.allowWildcards (lines 61-69): empty
    input falls through to an empty result; an input on which the search
    fails is replaced by the empty byte string; any other input is
    returned unchanged. -/
def allowWildcards (s : List Char) : List Char :=
  if s = [] then []
  else if searchPat s = true then s else []

/-- The shape described by claim C9: the input contains a substring made
    of the literal /dumps/iostats/*, six digits, an underscore and six
    digits. -/
def hasDumpPattern (s : List Char) : Prop :=
  ∃ u d1 d2 v, s = u ++ (litChars ++ (d1 ++ ('_' :: (d2 ++ v))))
    ∧ d1.length = 6 ∧ d2.length = 6
    ∧ (∀ c ∈ d1, isDigitCh c = true) ∧ (∀ c ∈ d2, isDigitCh c = true)

theorem checkLit_eq_some (pat : List Char) :
    ∀ t r, checkLit pat t = some r ↔ t = pat ++ r := by
  induction pat with
  | nil => intro t r; simp [checkLit]
  | cons c cs ih =>
    intro t r
    cases t with
    | nil => simp [checkLit]
    | cons x xs =>
      simp only [checkLit]
      by_cases hx : x = c
      · rw [if_pos hx, ih xs r]
        simp [hx]
      · rw [if_neg hx]
        simp [hx]

theorem checkDigits_eq_some :
    ∀ n t r, checkDigits n t = some r
      ↔ ∃ d : List Char,
          t = d ++ r ∧ d.length = n ∧ ∀ c ∈ d, isDigitCh c = true := by
  intro n
  induction n with
  | zero =>
    intro t r
    simp only [checkDigits]
    constructor
    · intro h
      have ht : t = r := by simpa using h
      exact ⟨[], by simp [ht], rfl, by simp⟩
    · rintro ⟨d, hd, hl, -⟩
      rw [List.length_eq_zero] at hl
      subst hl
      simp only [List.nil_append] at hd
      simp [hd]
  | succ n ih =>
    intro t r
    cases t with
    | nil =>
      simp only [checkDigits]
      constructor
      · intro h; simp at h
      · rintro ⟨d, hd, hl, -⟩
        cases d with
        | nil => simp at hl
        | cons y ys => simp at hd
    | cons x xs =>
      simp only [checkDigits]
      by_cases hx : isDigitCh x = true
      · rw [if_pos hx, ih xs r]
        constructor
        · rintro ⟨d, hd, hl, hdig⟩
          refine ⟨x :: d, by simp [hd], by simp [hl], ?_⟩
          intro c hc
          rcases List.mem_cons.mp hc with rfl | hc
          · exact hx
          · exact hdig c hc
        · rintro ⟨d, hd, hl, hdig⟩
          cases d with
          | nil => simp at hl
          | cons y ys =>
            have hxy : x = y ∧ xs = ys ++ r := by simpa using hd
            refine ⟨ys, hxy.2, by simpa using hl, ?_⟩
            intro c hc
            exact hdig c (List.mem_cons_of_mem y hc)
      · rw [if_neg hx]
        constructor
        · intro h; simp at h
        · rintro ⟨d, hd, hl, hdig⟩
          cases d with
          | nil => simp at hl
          | cons y ys =>
            have hxy : x = y ∧ xs = ys ++ r := by simpa using hd
            exact absurd (hxy.1 ▸ hdig y (List.mem_cons_self y ys)) hx

theorem matchAt_iff (t : List Char) :
    matchAt t = true
      ↔ ∃ d1 d2 v, t = litChars ++ (d1 ++ ('_' :: (d2 ++ v)))
          ∧ d1.length = 6 ∧ d2.length = 6
          ∧ (∀ c ∈ d1, isDigitCh c = true) ∧ (∀ c ∈ d2, isDigitCh c = true) := by
  unfold matchAt
  constructor
  · intro h
    cases h1 : checkLit litChars t with
    | none => rw [h1] at h; simp at h
    | some t1 =>
      rw [h1] at h
      dsimp only at h
      cases h2 : checkDigits 6 t1 with
      | none => rw [h2] at h; simp at h
      | some t2 =>
        rw [h2] at h
        dsimp only at h
        cases t2 with
        | nil => simp at h
        | cons x t3 =>
          simp only at h
          by_cases hx : x = '_'
          · rw [if_pos hx] at h
            cases h3 : checkDigits 6 t3 with
            | none => rw [h3] at h; simp at h
            | some t4 =>
              have ht := (checkLit_eq_some litChars t t1).mp h1
              obtain ⟨d1, hd1, hl1, hdig1⟩ :=
                (checkDigits_eq_some 6 t1 (x :: t3)).mp h2
              obtain ⟨d2, hd2, hl2, hdig2⟩ :=
                (checkDigits_eq_some 6 t3 t4).mp h3
              subst hx
              exact ⟨d1, d2, t4, by rw [ht, hd1, hd2], hl1, hl2, hdig1, hdig2⟩
          · rw [if_neg hx] at h; simp at h
  · rintro ⟨d1, d2, v, rfl, hl1, hl2, hdig1, hdig2⟩
    have h1 : checkLit litChars (litChars ++ (d1 ++ ('_' :: (d2 ++ v))))
        = some (d1 ++ ('_' :: (d2 ++ v))) :=
      (checkLit_eq_some litChars _ _).mpr rfl
    rw [h1]
    dsimp only
    have h2 : checkDigits 6 (d1 ++ ('_' :: (d2 ++ v))) = some ('_' :: (d2 ++ v)) :=
      (checkDigits_eq_some 6 _ _).mpr ⟨d1, rfl, hl1, hdig1⟩
    rw [h2]
    dsimp only
    have h3 : checkDigits 6 (d2 ++ v) = some v :=
      (checkDigits_eq_some 6 _ _).mpr ⟨d2, rfl, hl2, hdig2⟩
    simp [h3]

theorem searchPat_iff (s : List Char) :
    searchPat s = true ↔ ∃ u w, s = u ++ w ∧ matchAt w = true := by
  induction s with
  | nil =>
    simp only [searchPat]
    constructor
    · intro h; exact ⟨[], [], rfl, h⟩
    · rintro ⟨u, w, hw, hm⟩
      have : u = [] ∧ w = [] := by
        constructor <;> cases u <;> simp_all
      rcases this with ⟨rfl, rfl⟩
      exact hm
  | cons c cs ih =>
    simp only [searchPat, Bool.or_eq_true, ih]
    constructor
    · rintro (h | ⟨u, w, hw, hm⟩)
      · exact ⟨[], c :: cs, rfl, h⟩
      · exact ⟨c :: u, w, by simp [hw], hm⟩
    · rintro ⟨u, w, hw, hm⟩
      cases u with
      | nil =>
        left
        simp only [List.nil_append] at hw
        rwa [hw]
      | cons y ys =>
        right
        have hxy : c = y ∧ cs = ys ++ w := by simpa using hw
        exact ⟨ys, w, hxy.2, hm⟩

theorem hasDumpPattern_iff_searchPat (s : List Char) :
    hasDumpPattern s ↔ searchPat s = true := by
  rw [searchPat_iff]
  constructor
  · rintro ⟨u, d1, d2, v, rfl, hl1, hl2, hdig1, hdig2⟩
    exact ⟨u, _, rfl, (matchAt_iff _).mpr ⟨d1, d2, v, rfl, hl1, hl2, hdig1, hdig2⟩⟩
  · rintro ⟨u, w, rfl, hm⟩
    obtain ⟨d1, d2, v, rfl, hl1, hl2, hdig1, hdig2⟩ := (matchAt_iff w).mp hm
    exact ⟨u, d1, d2, v, rfl, hl1, hl2, hdig1, hdig2⟩

theorem hasDumpPattern_ne_nil (s : List Char) (h : hasDumpPattern s) :
    s ≠ [] := by
  rcases h with ⟨u, d1, d2, v, hdecomp, -⟩
  intro h0
  rw [h0] at hdecomp
  have hlen := congrArg List.length hdecomp
  simp [litChars] at hlen
  omega

/-- Claim C9: allowWildcards returns its input unchanged when the input
    contains a substring of the shape /dumps/iostats/* followed by six
    digits, an underscore and six digits, and returns the empty byte
    string for every other input (including the empty string); hence the
    only non-empty strings it passes to the file-transfer layer are dump
    path wildcard patterns of that exact shape. -/
theorem C9_allowWildcards_filter (s : List Char) :
    (hasDumpPattern s → allowWildcards s = s)
      ∧ (¬ hasDumpPattern s → allowWildcards s = []) := by
  constructor
  · intro h
    have hs : searchPat s = true := (hasDumpPattern_iff_searchPat s).mp h
    unfold allowWildcards
    rw [if_neg (hasDumpPattern_ne_nil s h), if_pos hs]
  · intro h
    have hs : searchPat s = false := by
      cases hsp : searchPat s
      · rfl
      · exact absurd ((hasDumpPattern_iff_searchPat s).mpr hsp) h
    unfold allowWildcards
    by_cases h0 : s = []
    · rw [if_pos h0]
    · rw [if_neg h0]
      simp [hs]

/-- A concrete dump wildcard pattern. -/
def wildcardExample : List Char := ("/dumps/iostats/*123456_654321").toList

/-- Witness for C9: the concrete pattern is passed through unchanged and a
    string without the pattern is replaced by the empty string. -/
theorem C9_allowWildcards_filter_witness :
    allowWildcards wildcardExample = wildcardExample :=
  (C9_allowWildcards_filter wildcardExample).1
    ⟨[], ("123456").toList, ("654321").toList, [],
      by decide, by decide, by decide, by decide, by decide⟩

end SvcPlugin
